import Mathlib

/-!
# cacheyd: the cache-or-proxy orchestrator, the streaming copier and the router

A shallow embedding of `pkg/service/service.go` and `pkg/mux/mux.go`.

* Go interfaces whose implementations live outside these files (`http.ResponseWriter`,
  `io.Reader`, `io.Writer`, the cache write-sink, the HTTP client) are modelled by the
  calls made on them: every call updates an explicit `World`.
* An `io.Reader` is a script: the list of the results of its successive `Read` calls.
* `http.Header` is an association list from canonical keys to value lists.
-/

set_option autoImplicit false

namespace Cacheyd

/-! ## Bytes and strings -/

/-- A Go `[]byte`. -/
abbrev Bytes := List UInt8

/-- The conversion `[]byte(s)`: the UTF-8 encoding of a string. -/
def bytesOf (s : String) : Bytes := s.data.flatMap String.utf8EncodeChar

/-! ## `http.Header` -/

/-- A Go `http.Header` (`map[string][]string`), as the list of its entries. -/
abbrev Header := List (String × List String)

/-- The bytes `textproto` accepts in a header field name (RFC 7230 token characters). -/
def validHeaderFieldByte (c : Char) : Bool :=
  c.isAlphanum || "!#$%&'*+-.^_`|~".data.contains c

/-- The second loop of `textproto.canonicalMIMEHeaderKey`: upper-case the first letter
and every letter after a hyphen, lower-case the rest. -/
def canonChars : Bool → List Char → List Char
  | _, [] => []
  | upper, c :: cs =>
    let c1 := if upper && c.isLower then c.toUpper
              else if !upper && c.isUpper then c.toLower else c
    c1 :: canonChars (c1 == '-') cs

/-- The function `textproto.CanonicalMIMEHeaderKey`: a key holding a byte that is not a
token character is returned unchanged, any other key is put in canonical case. -/
def canonicalMIMEHeaderKey (s : String) : String :=
  if s.data.all validHeaderFieldByte then String.mk (canonChars true s.data) else s

/-- The map read `h[key]`: the value list stored under `key`, `nil` when absent. -/
def Header.lookup : Header → String → List String
  | [], _ => []
  | (k, vs) :: t, key => if k = key then vs else Header.lookup t key

/-- The map write `h[key] = vs`. -/
def Header.store : Header → String → List String → Header
  | [], key, vs => [(key, vs)]
  | (k, old) :: t, key, vs =>
    if k = key then (k, vs) :: t else (k, old) :: Header.store t key vs

/-- The method `Header.Add`: `h[canon key] = append(h[canon key], value)`. -/
def Header.Add (h : Header) (key value : String) : Header :=
  let k := canonicalMIMEHeaderKey key
  h.store k (h.lookup k ++ [value])

/-- The method `Header.Values`: all values under the canonical form of `key`. -/
def Header.Values (h : Header) (key : String) : List String :=
  h.lookup (canonicalMIMEHeaderKey key)

/-- The method `Header.Get`: the first value under the canonical form of `key`, or `""`. -/
def Header.Get (h : Header) (key : String) : String :=
  match h.lookup (canonicalMIMEHeaderKey key) with
  | [] => ""
  | v :: _ => v

/-- The function `copyHeaders` (service.go:161): for each entry of `src`, `Add` every
value to `dst` under the entry's key. The list order of `src` stands for the order in
which `range` happens to visit the map. -/
def copyHeaders (dst src : Header) : Header :=
  src.foldl (fun d kv => kv.2.foldl (fun d1 v => d1.Add kv.1 v) d) dst

/-! ## Readers and writers -/

/-- The errors an `io.Reader` may return. -/
inductive IOErr where
  | EOF
  | Canceled
  | other (msg : String)
  deriving DecidableEq, Repr

/-- The result of one `src.Read(buf)`: the bytes `buf[:nr]` and the error. -/
structure ReadResult where
  data : Bytes
  err : Option IOErr
  deriving DecidableEq, Repr

/-- An `io.Reader`, as the results of its successive `Read` calls; a reader whose script
is used up returns `(0, io.EOF)`. -/
abbrev Reader := List ReadResult

/-- The result `(n, err)` of one `Write`. -/
structure WriteResult where
  n : Int
  err : Option String
  deriving DecidableEq, Repr

/-- An `io.Writer` acting on a state `σ`. -/
structure Writer (σ : Type) where
  Write : Bytes → σ → WriteResult × σ

/-- The inner loop `for _, v := range dst { v.Write(buf[:nr]) }` (service.go:139-149):
both results of every `Write` are dropped. -/
def writeAll {σ : Type} : List (Writer σ) → Bytes → σ → σ
  | [], _, s => s
  | v :: vs, p, s => writeAll vs p (v.Write p s).2

/-- The function `readIntoWriters` (service.go:128): read a chunk, hand it to every
destination when `nr > 0`, stop at the first read error, turning `io.EOF` into `nil`. -/
def readIntoWriters {σ : Type} (dst : List (Writer σ)) : Reader → σ → Option IOErr × σ
  | [], s => (none, s)
  | r :: rest, s =>
    let s1 := if r.data.length > 0 then writeAll dst r.data s else s
    match r.err with
    | some rerr => (if rerr = IOErr.EOF then none else some rerr, s1)
    | none => readIntoWriters dst rest s1

/-- The bytes a reader delivers: the data of its reads up to and including the first one
that returns an error. -/
def Reader.content : Reader → Bytes
  | [] => []
  | r :: rest =>
    match r.err with
    | some _ => r.data
    | none => r.data ++ Reader.content rest

/-- A destination that records, in a shared log, its index and every chunk handed to it,
and answers with `res`, which may report a failure. -/
def recorder (res : Nat → Bytes → WriteResult) (i : Nat) : Writer (List (Nat × Bytes)) :=
  ⟨fun p log => (res i p, log ++ [(i, p)])⟩

/-- The bytes destination `i` has been handed, in order. -/
def received (i : Nat) (log : List (Nat × Bytes)) : Bytes :=
  ((log.filter (fun e => e.1 = i)).map Prod.snd).flatten

/-! ## The data model of `pkg/model` and the collaborators of the service -/

/-- The kind of an object, `model.ObjectTypeManifest` or `model.ObjectTypeBlob`. -/
inductive ObjectType where
  | manifest
  | blob
  deriving DecidableEq, Repr

/-- The struct `model.ObjectIdentifier`, with the fields the code and the test name. -/
structure ObjectIdentifier where
  Registry : String
  Repository : String
  Ref : String
  /-- The field `Type` of the Go struct. -/
  Kind : ObjectType
  deriving DecidableEq, Repr

/-- Modelled from the spec: the constant `model.HeaderContentLength`, declared in
`pkg/model`; the spec calls it the mirrored content-length header. -/
def HeaderContentLength : String := "Content-Length"

/-- Modelled from the spec: the constant `model.HeaderContentType`, declared in
`pkg/model`; the spec calls it the mirrored content-type header. -/
def HeaderContentType : String := "Content-Type"

/-- Modelled from the spec: the constant `model.HeaderDockerContentDigest`, declared in
`pkg/model`; the spec calls it the upstream content-digest header. -/
def HeaderDockerContentDigest : String := "Docker-Content-Digest"

/-- A `time.Time`, known through the text its `String` method renders. -/
structure Time where
  text : String
  deriving DecidableEq, Repr

/-- The method `time.Time.String`. -/
def Time.String (t : Time) : String := t.text

/-- The cached artifact returned by `GetCache`, with the fields `cacheOrProxy` reads;
`GetReader` is the stream the method of that name opens (its error result is dropped by
the caller, service.go:73). `SizeBytes` is an `int64`; the conversion `int(SizeBytes)` of
service.go:69 is the identity on a 64-bit platform. -/
structure CachedObject where
  SizeBytes : Int
  CacheDate : Time
  ContentType : String
  DockerContentDigest : String
  GetReader : Reader
  deriving DecidableEq, Repr

/-- The results `(cached, _, err)` of `s.Cache.GetCache(object)`; the write-sink, second
result, is the `cacheWriter` of the `World`. -/
structure CacheLookup where
  cached : Option CachedObject
  err : Option String
  deriving DecidableEq, Repr

/-- An `http.Response`, with the fields the service reads. -/
structure Response where
  StatusCode : Nat
  Header : Header
  Body : Reader
  deriving DecidableEq, Repr

/-- The request built by `proxy` (service.go:183-194). -/
structure Request where
  Method : String
  URL : String
  Header : Header
  deriving DecidableEq, Repr

/-- Modelled from the spec: the error type `Non200Error`, declared in `pkg/service`
outside service.go, next to the other errors `proxy` can return (request construction,
DNS, TLS, connect, timeout), which carry no response. -/
inductive Error where
  | Non200Error (Code : Nat)
  | transport (msg : String)
  deriving DecidableEq, Repr

/-- Modelled from the spec: the test `errors.Is(err, &Non200Error{})` (service.go:93);
the spec classifies every non-200 answer as passthrough, so the test holds exactly for the
errors of type `Non200Error`, whatever their code. -/
def Error.isNon200 : Error → Bool
  | Error.Non200Error _ => true
  | Error.transport _ => false

/-- What the service is given from outside: the cache store and the network. -/
structure Env where
  /-- The method `s.Cache.GetCache`. -/
  GetCache : ObjectIdentifier → CacheLookup
  /-- The error, if any, of `http.NewRequestWithContext` for a method and a URL. -/
  NewRequestWithContext : String → String → Option String
  /-- The call `client.Do`. -/
  Do : Request → Except String Response

/-- The `http.ResponseWriter` of the request, the one of the net/http server: the header
map `w.Header()`, the final status with the header snapshot sent with it (fixed by the
first accepted `WriteHeader` or by the first `Write`), the interim responses sent before
it, and the bytes handed to `Write`. -/
structure ResponseWriter where
  header : Header
  sent : Option (Nat × Header)
  interim : List (Nat × Header)
  body : Bytes
  deriving DecidableEq, Repr

/-- The write-sink returned by `GetCache`: the bytes written to it and the arguments of
every `Close(contentType, dockerContentDigest)`. -/
structure CacheWriter where
  written : Bytes
  closes : List (String × String)
  deriving DecidableEq, Repr

/-- Everything a request can change. -/
structure World where
  w : ResponseWriter
  cacheWriter : CacheWriter
  /-- The bytes `StdouteyBoi` has written to `log.Writer()`. -/
  logWriter : Bytes
  /-- The requests handed to `client.Do`. -/
  requests : List Request
  cacheHits : Nat
  cacheMisses : Nat
  /-- The number of `Close` calls on readers and response bodies. -/
  closedReaders : Nat
  deriving DecidableEq, Repr

/-- How a handler ends: it returns, or it panics (on a nil pointer, or inside
`WriteHeader` on a status code net/http refuses). -/
inductive Exit where
  | returned
  | panicked
  deriving DecidableEq, Repr

/-- The call `w.Header().Add(key, value)`. -/
def World.addHeader (s : World) (key value : String) : World :=
  { s with w := { s.w with header := s.w.header.Add key value } }

/-- The end of net/http's `WriteHeader` for a final status: when no status was sent yet,
the status and the headers as they stand are sent. -/
def World.writeStatus (s : World) (code : Nat) : World :=
  match s.w.sent with
  | some _ => s
  | none => { s with w := { s.w with sent := some (code, s.w.header) } }

/-- The method `ResponseWriter.WriteHeader` of net/http. Once a status was sent the call
changes nothing. Otherwise `checkWriteHeaderCode` panics on a code below 100 or above 999
(the result `none`); an informational code, 100 to 199 except 101, is sent as an interim
response with the headers as they stand and fixes nothing; any other code is the final
status. -/
def World.WriteHeader (s : World) (code : Nat) : Option World :=
  match s.w.sent with
  | some _ => some s
  | none =>
    if code < 100 ∨ code > 999 then none
    else if code ≤ 199 ∧ code ≠ 101 then
      some { s with w := { s.w with interim := s.w.interim ++ [(code, s.w.header)] } }
    else some (s.writeStatus code)

/-- The method `ResponseWriter.Write`: an implicit `WriteHeader(200)` when nothing was
sent yet, then the bytes are appended to the body. -/
def clientWriter : Writer World :=
  ⟨fun p s =>
    let s1 := s.writeStatus 200
    (⟨p.length, none⟩, { s1 with w := { s1.w with body := s1.w.body ++ p } })⟩

/-- The method `Write` of the write-sink. -/
def cacheWriterWriter : Writer World :=
  ⟨fun p s =>
    (⟨p.length, none⟩, { s with cacheWriter := { s.cacheWriter with written := s.cacheWriter.written ++ p } })⟩

/-- The method `cacheWriter.Close(contentType, dockerContentDigest)`. -/
def World.closeCacheWriter (s : World) (contentType digest : String) : World :=
  { s with cacheWriter := { s.cacheWriter with closes := s.cacheWriter.closes ++ [(contentType, digest)] } }

/-- The type `StdouteyBoi` (service.go:122-126): `Write` forwards to `log.Writer()`. -/
def StdouteyBoi : Writer World :=
  ⟨fun p s => (⟨p.length, none⟩, { s with logWriter := s.logWriter ++ p })⟩

/-- A `Close` on a reader or a response body. -/
def World.closeReader (s : World) : World :=
  { s with closedReaders := s.closedReaders + 1 }

/-! ## `pkg/service/service.go` -/

/-- The function `proxy` (service.go:182): build the request, copy the caller's headers
into it, and hand it to the client. -/
def proxy (env : Env) (url method : String) (headers : Header) (s : World) :
    (Option Response × Option Error) × World :=
  match env.NewRequestWithContext method url with
  | some e => ((none, some (Error.transport e)), s)
  | none =>
    let req : Request := { Method := method, URL := url, Header := copyHeaders [] headers }
    let s1 := { s with requests := s.requests ++ [req] }
    match env.Do req with
    | Except.error e => ((none, some (Error.transport e)), s1)
    | Except.ok resp => ((some resp, none), s1)

/-- The function `proxySuccessOrError` (service.go:169): a transport error comes back
with a nil response, a 200 with no error, any other status with a `Non200Error`. -/
def proxySuccessOrError (env : Env) (url method : String) (headers : Header) (s : World) :
    (Option Response × Option Error) × World :=
  match proxy env url method headers s with
  | ((_, some err), s1) => ((none, some err), s1)
  | ((none, none), s1) => ((none, none), s1)
  | ((some resp, none), s1) =>
    if resp.StatusCode = 200 then ((some resp, none), s1)
    else ((some resp, some (Error.Non200Error resp.StatusCode)), s1)

/-- The URL `fmt.Sprintf(url, object.Registry, object.Repository, object.Ref)`
(service.go:81-86). -/
def upstreamURL (object : ObjectIdentifier) : String :=
  match object.Kind with
  | ObjectType.manifest =>
    "https://" ++ object.Registry ++ "/v2/" ++ object.Repository ++ "/manifests/" ++ object.Ref
  | ObjectType.blob =>
    "https://" ++ object.Registry ++ "/v2/" ++ object.Repository ++ "/blobs/" ++ object.Ref

/-- The destinations of the copy on an upstream success (service.go:110-116). -/
def successWriters (object : ObjectIdentifier) (isHead : Bool) : List (Writer World) :=
  let writers := [cacheWriterWriter]
  let writers := if object.Kind = ObjectType.manifest then writers ++ [StdouteyBoi] else writers
  if !isHead then writers ++ [clientWriter] else writers

/-- The method `cacheOrProxy` (service.go:54). The counters `cacheHits` and `cacheMisses`
are fields of the world. The log lines are left out, except that line 87 reads
`upstreamResp.Header` before the error is looked at, which panics on a nil response. A
panic inside `WriteHeader` ends the handler there; the deferred `Body.Close` of line 104
still runs. -/
def cacheOrProxy (env : Env) (object : ObjectIdentifier) (isHead : Bool) (headers : Header)
    (s : World) : Exit × World :=
  let s := s.addHeader "X-Proxied-By" "cacheyd"
  let s := s.addHeader "X-Proxied-For" object.Registry
  let r := env.GetCache object
  match r.err with
  | some _ =>
    match s.WriteHeader 500 with
    | none => (Exit.panicked, s)
    | some s => (Exit.returned, s)
  | none =>
  match r.cached with
  | some cached =>
    let s := { s with cacheHits := s.cacheHits + 1 }
    let s := s.addHeader "X-Proxy-Date" cached.CacheDate.String
    let s := s.addHeader HeaderContentLength (toString cached.SizeBytes)
    let s := s.addHeader HeaderContentType cached.ContentType
    let s := s.addHeader HeaderDockerContentDigest cached.DockerContentDigest
    let s := (readIntoWriters [clientWriter] cached.GetReader s).2
    (Exit.returned, s.closeReader)
  | none =>
  let s := { s with cacheMisses := s.cacheMisses + 1 }
  match proxySuccessOrError env (upstreamURL object) "GET" headers s with
  | ((none, _), s) => (Exit.panicked, s)
  | ((some upstreamResp, some err), s) =>
    if err.isNon200 then
      let s := { s with w := { s.w with header := copyHeaders s.w.header upstreamResp.Header } }
      match s.WriteHeader upstreamResp.StatusCode with
      | none => (Exit.panicked, s)
      | some s =>
        let s := if !isHead then (readIntoWriters [clientWriter] upstreamResp.Body s).2 else s
        (Exit.returned, s.closeReader)
    else (Exit.returned, s.closeReader)
  | ((some upstreamResp, none), s) =>
    let s := { s with w := { s.w with header := copyHeaders s.w.header upstreamResp.Header } }
    match s.WriteHeader upstreamResp.StatusCode with
    | none => (Exit.panicked, s.closeReader)
    | some s =>
      let s := (readIntoWriters (successWriters object isHead) upstreamResp.Body s).2
      let s := s.closeCacheWriter (upstreamResp.Header.Get HeaderContentType)
        (upstreamResp.Header.Get HeaderDockerContentDigest)
      (Exit.returned, s.closeReader)

/-- The entry point `GetManifest` of `CacheydService` (service.go:38): log, then
`cacheOrProxy`. -/
def CacheydService.GetManifest (env : Env) (object : ObjectIdentifier) (isHead : Bool)
    (headers : Header) (s : World) : Exit × World :=
  cacheOrProxy env object isHead headers s

/-- The entry point `GetBlob` of `CacheydService` (service.go:46): log, then
`cacheOrProxy`. -/
def CacheydService.GetBlob (env : Env) (object : ObjectIdentifier) (isHead : Bool)
    (headers : Header) (s : World) : Exit × World :=
  cacheOrProxy env object isHead headers s

/-! ## `pkg/mux/mux.go` -/

/-- The interface the router calls (mux.go:38 and mux.go:60): repository, reference,
registry, `isHead` and the request headers, acting on the response writer of the world. -/
structure Service where
  GetManifest : String → String → String → Bool → Header → World → Exit × World
  GetBlob : String → String → String → Bool → Header → World → Exit × World

/-- The fields of `*http.Request` the handlers read: the method, the parsed query
`r.URL.Query()` and the headers. -/
structure HttpRequest where
  Method : String
  Query : List (String × List String)
  Header : Header
  deriving DecidableEq, Repr

/-- The method `url.Values.Get`: the first value stored under `key`, or `""`. -/
def queryGet (q : List (String × List String)) (key : String) : String :=
  match Header.lookup q key with
  | [] => ""
  | v :: _ => v

/-- The text of the 400 answer (mux.go:27 and mux.go:49). -/
def noNsMessage (repo : String) : String :=
  "No ns query string given (are you using containerd?): I don't know what registry to ask for " ++ repo

/-- The handler of `/v2/{repo}/manifests/{ref}` (mux.go:20-39); `vars` is `mux.Vars(r)`.
The assignment `isHead = true` is commented out in the source, so `isHead` stays false
for every method. -/
def manifestHandler (services : Service) (vars : String → String) (r : HttpRequest)
    (s : World) : Exit × World :=
  let repo := vars "repo"
  let registry := queryGet r.Query "ns"
  if registry = "" then
    match s.WriteHeader 400 with
    | none => (Exit.panicked, s)
    | some s => (Exit.returned, (clientWriter.Write (bytesOf (noNsMessage repo)) s).2)
  else
    let isHead := false
    services.GetManifest repo (vars "ref") registry isHead r.Header s

/-- The handler of `/v2/{repo}/blobs/{digest}` (mux.go:42-61); `vars` is `mux.Vars(r)`. -/
def blobHandler (services : Service) (vars : String → String) (r : HttpRequest)
    (s : World) : Exit × World :=
  let repo := vars "repo"
  let registry := queryGet r.Query "ns"
  if registry = "" then
    match s.WriteHeader 400 with
    | none => (Exit.panicked, s)
    | some s => (Exit.returned, (clientWriter.Write (bytesOf (noNsMessage repo)) s).2)
  else
    let isHead := if r.Method = "HEAD" then true else false
    services.GetBlob repo (vars "digest") registry isHead r.Header s

/-- The handler of `/` (mux.go:16-18). -/
def rootHandler (s : World) : Exit × World :=
  (Exit.returned, (clientWriter.Write (bytesOf "cacheyd") s).2)

/-- The route gorilla/mux matched for the request path. -/
inductive Route where
  | root
  | manifests
  | blobs
  deriving DecidableEq, Repr

/-- The function `NewRouter` (mux.go:13): the handler registered for each route. -/
def NewRouter (services : Service) : Route → (String → String) → HttpRequest → World → Exit × World
  | Route.root => fun _ _ s => rootHandler s
  | Route.manifests => manifestHandler services
  | Route.blobs => blobHandler services

/-- Modelled from the spec: the glue between the router, which passes repository,
reference and registry one by one, and the entry points of service.go, which take an
`ObjectIdentifier`. The spec has the router invoke the manifest and blob entry points
with the resolved identifier: the three strings and the kind of the entry point. -/
def cacheydServices (env : Env) : Service where
  GetManifest := fun repo ref registry isHead headers s =>
    CacheydService.GetManifest env
      { Registry := registry, Repository := repo, Ref := ref, Kind := ObjectType.manifest }
      isHead headers s
  GetBlob := fun repo ref registry isHead headers s =>
    CacheydService.GetBlob env
      { Registry := registry, Repository := repo, Ref := ref, Kind := ObjectType.blob }
      isHead headers s

/-! ## The cache store of `pkg/cache`, known through its test and the spec -/

/-- Modelled from the spec: the sidecar metadata record, holding the four identifier
fields (registry, repository, reference, kind), as stored next to the content file. -/
structure SidecarRecord where
  Registry : String
  Repository : String
  Ref : String
  Kind : ObjectType
  deriving DecidableEq, Repr

/-- Modelled from the spec: the persisted layout of a cache directory, one content file
of raw bytes plus one sidecar metadata file per cache key; `modTime` is the date of the
content file. -/
structure CacheDirectory where
  content : String → Option Bytes
  sidecar : String → Option SidecarRecord
  modTime : String → Time

/-- The size of the copy buffer, `32*1024` (service.go:129). -/
def bufSize : Nat := 32 * 1024

/-- Modelled from the spec: the stream `GetReader` opens on a content file, read from
offset 0 in pieces of at most `size` bytes, with `(0, io.EOF)` once the bytes are used
up. The first argument bounds the number of reads. -/
def fileReads (size : Nat) : Nat → Bytes → Reader
  | 0, _ => [⟨[], some IOErr.EOF⟩]
  | fuel + 1, b =>
    if b = [] then [⟨[], some IOErr.EOF⟩]
    else ⟨b.take size, none⟩ :: fileReads size fuel (b.drop size)

/-- Modelled from the spec: `FileCache.GetCache`, absent from the sources at hand.
`Lookup` finds an artifact when both the content file and the sidecar record are stored
under the identifier's key, and a miss otherwise; the artifact's size is the length of
the content, and its reader reproduces the stored bytes. The key derivation `key` and the
content type and digest kept for the artifact (`stored`) are taken as given. -/
def FileCache.GetCache (key : ObjectIdentifier → String)
    (stored : String → String × String) (dir : CacheDirectory)
    (object : ObjectIdentifier) : CacheLookup :=
  let name := key object
  match dir.content name, dir.sidecar (name ++ ".json") with
  | some b, some _ =>
    { cached := some
        { SizeBytes := b.length
          CacheDate := dir.modTime name
          ContentType := (stored name).1
          DockerContentDigest := (stored name).2
          GetReader := fileReads bufSize b.length b }
      err := none }
  | _, _ => { cached := none, err := none }

/-- The cache names of the test cases of `TestReadFromCache` (cache_test.go:27 and
cache_test.go:43): registry, kind letter, then repository (slashes as underscores) and
reference for a manifest, the reference alone for a blob. -/
def testCacheName (object : ObjectIdentifier) : String :=
  match object.Kind with
  | ObjectType.manifest =>
    object.Registry ++ "-m-"
      ++ String.mk (object.Repository.data.map (fun c => if c = '/' then '_' else c))
      ++ "-" ++ object.Ref
  | ObjectType.blob => object.Registry ++ "-b-" ++ object.Ref

/-- The error returned by the copy: the first read error of the script, `nil` for
`io.EOF` and for a script that is used up. -/
def Reader.finalErr : Reader → Option IOErr
  | [] => none
  | r :: rest =>
    match r.err with
    | some e => if e = IOErr.EOF then none else some e
    | none => Reader.finalErr rest

/-! ## Concrete worlds and environments -/

/-- A world in which nothing has happened yet. -/
def World.fresh : World :=
  { w := { header := [], sent := none, interim := [], body := [] }
    cacheWriter := { written := [], closes := [] }
    logWriter := []
    requests := []
    cacheHits := 0
    cacheMisses := 0
    closedReaders := 0 }

/-- An environment whose cache store misses every identifier and whose upstream gives
the same answer to every request. -/
def missEnv (answer : Except String Response) : Env :=
  { GetCache := fun _ => { cached := none, err := none }
    NewRequestWithContext := fun _ _ => none
    Do := fun _ => answer }

/-- An environment whose cache store finds `cached` for every identifier; its upstream
is unreachable. -/
def hitEnv (cached : CachedObject) : Env :=
  { GetCache := fun _ => { cached := some cached, err := none }
    NewRequestWithContext := fun _ _ => none
    Do := fun _ => Except.error "unreachable" }

/-- The manifest of the test scenario: `user/repository` at `v1.2.3` on `docker.io`. -/
def testManifest : ObjectIdentifier :=
  { Registry := "docker.io", Repository := "user/repository", Ref := "v1.2.3",
    Kind := ObjectType.manifest }

/-- The route variables of `/v2/user/repository/manifests/v1.2.3` (or the same path
under `blobs`). -/
def testVars (k : String) : String :=
  if k = "repo" then "user/repository"
  else if k = "ref" then "v1.2.3"
  else if k = "digest" then "v1.2.3"
  else ""

/-- A 200 answer with the body `6bytes`, read in one piece and ended by `io.EOF`. -/
def okResponse : Response :=
  { StatusCode := 200
    Header := [("Content-Type", ["application/vnd.docker.distribution.manifest.v2+json"]),
               ("Docker-Content-Digest", ["sha256:abc"])]
    Body := [⟨bytesOf "6bytes", none⟩, ⟨[], some IOErr.EOF⟩] }

/-- A 200 answer whose body breaks after three bytes. -/
def brokenResponse : Response :=
  { StatusCode := 200
    Header := [("Content-Type", ["text/plain"]), ("Docker-Content-Digest", ["sha256:abc"])]
    Body := [⟨[1, 2, 3], none⟩, ⟨[], some (IOErr.other "unexpected EOF")⟩] }

/-- A destination result function: destination 0 fails every write, the others
succeed. -/
def firstFails (i : Nat) (p : Bytes) : WriteResult :=
  if i = 0 then ⟨0, some "no space left on device"⟩ else ⟨p.length, none⟩

/-- The two proxy markers are among the values of a header map: `cacheyd` under
`X-Proxied-By` and the registry under `X-Proxied-For`. -/
def Marked (registry : String) (h : Header) : Prop :=
  "cacheyd" ∈ h.Values "X-Proxied-By" ∧ registry ∈ h.Values "X-Proxied-For"

/-- The markers are in the header map of the response writer and in the headers sent
with the status, if the status was sent. -/
def ResponseWriter.Marked (registry : String) (w : ResponseWriter) : Prop :=
  Cacheyd.Marked registry w.header ∧ ∀ x, w.sent = some x → Cacheyd.Marked registry x.2

/-- A 404 answer with a challenge header and a short body. -/
def notFoundResponse : Response :=
  { StatusCode := 404
    Header := [("Www-Authenticate", ["Bearer realm=registry"])]
    Body := [⟨bytesOf "gone", some IOErr.EOF⟩] }

/-- An answer with the status line `099`, which the HTTP client hands to its caller as it
is, and the body `gone`. -/
def status99Response : Response :=
  { StatusCode := 99
    Header := [("Content-Type", ["text/plain"])]
    Body := [⟨bytesOf "gone", some IOErr.EOF⟩] }

/-- A cached artifact of six bytes. -/
def testCached : CachedObject :=
  { SizeBytes := 6
    CacheDate := ⟨"2023-01-01 00:00:00 +0000 UTC"⟩
    ContentType := "application/vnd.docker.distribution.manifest.v2+json"
    DockerContentDigest := "sha256:abc"
    GetReader := [⟨bytesOf "6bytes", none⟩, ⟨[], some IOErr.EOF⟩] }

/-- The request `HEAD ...?ns=docker.io` with no headers. -/
def headRequest : HttpRequest :=
  { Method := "HEAD", Query := [("ns", ["docker.io"])], Header := [] }

/-- The request `GET ...` without a query string. -/
def noNsRequest : HttpRequest :=
  { Method := "GET", Query := [], Header := [] }

/-- The cache directory of the first test case of `TestReadFromCache`: the content
`6bytes` and the sidecar record under `docker.io-m-user_repository-v1.2.3`. -/
def testDirectory : CacheDirectory :=
  { content := fun name =>
      if name = "docker.io-m-user_repository-v1.2.3" then some (bytesOf "6bytes") else none
    sidecar := fun name =>
      if name = "docker.io-m-user_repository-v1.2.3.json" then
        some { Registry := "docker.io", Repository := "user/repository", Ref := "v1.2.3",
               Kind := ObjectType.manifest }
      else none
    modTime := fun _ => ⟨"2023-01-01 00:00:00 +0000 UTC"⟩ }

/-! ## Lemmas on headers -/

theorem Header.lookup_store_same (h : Header) (k : String) (vs : List String) :
    (h.store k vs).lookup k = vs := by
  induction h with
  | nil => simp [Header.store, Header.lookup]
  | cons e t ih =>
    obtain ⟨k1, old⟩ := e
    by_cases hk : k1 = k
    · simp [Header.store, Header.lookup, hk]
    · simp [Header.store, Header.lookup, hk, ih]

theorem Header.lookup_store_other (h : Header) (k k0 : String) (vs : List String)
    (hne : k ≠ k0) : (h.store k vs).lookup k0 = h.lookup k0 := by
  induction h with
  | nil => simp [Header.store, Header.lookup, hne]
  | cons e t ih =>
    obtain ⟨k1, old⟩ := e
    by_cases hk : k1 = k
    · subst hk
      simp [Header.store, Header.lookup, hne]
    · by_cases hk0 : k1 = k0
      · subst hk0
        simp [Header.store, Header.lookup, hk]
      · simp [Header.store, Header.lookup, hk, hk0, ih]

/-- `Add` only appends: a value stored under any key is still there afterwards. -/
theorem Header.mem_lookup_Add (h : Header) (key value k0 v : String)
    (hv : v ∈ h.lookup k0) : v ∈ (h.Add key value).lookup k0 := by
  unfold Header.Add
  by_cases hk : canonicalMIMEHeaderKey key = k0
  · subst hk
    simp [Header.lookup_store_same, hv]
  · simp [Header.lookup_store_other _ _ _ _ hk, hv]

/-- `Add` stores the value under the canonical form of the key. -/
theorem Header.mem_Values_Add (h : Header) (key value : String) :
    value ∈ (h.Add key value).Values key := by
  simp [Header.Add, Header.Values, Header.lookup_store_same]

theorem Header.mem_lookup_foldl_Add (key : String) (vv : List String) (h : Header)
    (k0 v : String) (hv : v ∈ h.lookup k0) :
    v ∈ (vv.foldl (fun d1 x => d1.Add key x) h).lookup k0 := by
  induction vv generalizing h with
  | nil => simpa using hv
  | cons x xs ih => exact ih _ (Header.mem_lookup_Add h key x k0 v hv)

theorem Header.mem_Values_foldl_Add (key : String) (vv : List String) (h : Header)
    (v : String) (hv : v ∈ vv) :
    v ∈ (vv.foldl (fun d1 x => d1.Add key x) h).Values key := by
  induction vv generalizing h with
  | nil => simp at hv
  | cons x xs ih =>
    rcases List.mem_cons.mp hv with rfl | hmem
    · exact Header.mem_lookup_foldl_Add key xs _ _ _ (Header.mem_Values_Add h key v)
    · exact ih _ hmem

/-- The function `copyHeaders` only appends: no value of `dst` is removed or replaced. -/
theorem copyHeaders_keeps (dst src : Header) (k0 v : String) (hv : v ∈ dst.lookup k0) :
    v ∈ (copyHeaders dst src).lookup k0 := by
  unfold copyHeaders
  induction src generalizing dst with
  | nil => simpa using hv
  | cons e t ih => exact ih _ (Header.mem_lookup_foldl_Add e.1 e.2 dst k0 v hv)

/-- The function `copyHeaders` adds every value of every entry of `src`. -/
theorem copyHeaders_adds (dst src : Header) (k : String) (vv : List String) (v : String)
    (he : (k, vv) ∈ src) (hv : v ∈ vv) : v ∈ (copyHeaders dst src).Values k := by
  induction src generalizing dst with
  | nil => simp at he
  | cons e t ih =>
    rcases List.mem_cons.mp he with rfl | hmem
    · have h1 := Header.mem_Values_foldl_Add k vv dst v hv
      have h2 := copyHeaders_keeps (vv.foldl (fun d1 x => d1.Add k x) dst) t _ v h1
      simpa [copyHeaders, Header.Values] using h2
    · have h3 := ih (e.2.foldl (fun d1 x => d1.Add e.1 x) dst) hmem
      simpa [copyHeaders] using h3

/-! ## Lemmas on the streaming copier -/

/-- A property every destination keeps is kept by the inner loop. -/
theorem writeAll_preserves {σ : Type} (P : σ → Prop) (dst : List (Writer σ))
    (hdst : ∀ v ∈ dst, ∀ p s, P s → P (v.Write p s).2) (p : Bytes) (s : σ) (hs : P s) :
    P (writeAll dst p s) := by
  induction dst generalizing s with
  | nil => simpa [writeAll] using hs
  | cons v vs ih =>
    simp only [writeAll]
    exact ih (fun u hu => hdst u (List.mem_cons_of_mem _ hu)) _
      (hdst v (List.mem_cons_self _ _) p s hs)

/-- A property every destination keeps is kept by the whole copy. -/
theorem readIntoWriters_preserves {σ : Type} (P : σ → Prop) (dst : List (Writer σ))
    (hdst : ∀ v ∈ dst, ∀ p s, P s → P (v.Write p s).2) (src : Reader) (s : σ) (hs : P s) :
    P (readIntoWriters dst src s).2 := by
  induction src generalizing s with
  | nil => simpa [readIntoWriters] using hs
  | cons r rest ih =>
    have h1 : P (if r.data.length > 0 then writeAll dst r.data s else s) := by
      split
      · exact writeAll_preserves P dst hdst _ _ hs
      · exact hs
    simp only [readIntoWriters]
    cases hr : r.err with
    | some e => simpa using h1
    | none => simpa using ih _ h1

/-- When one pass of the inner loop appends the chunk to a projection of the state, the
whole copy appends the content of the reader to it. -/
theorem readIntoWriters_appends {σ : Type} (f : σ → Bytes) (dst : List (Writer σ))
    (hw : ∀ p s, f (writeAll dst p s) = f s ++ p) (src : Reader) (s : σ) :
    f (readIntoWriters dst src s).2 = f s ++ Reader.content src := by
  induction src generalizing s with
  | nil => simp [readIntoWriters, Reader.content]
  | cons r rest ih =>
    have h1 : f (if r.data.length > 0 then writeAll dst r.data s else s) = f s ++ r.data := by
      split
      · exact hw _ _
      · have : r.data = [] := by
          cases hd : r.data with
          | nil => rfl
          | cons a t => simp [hd] at *
        simp [this]
    simp only [readIntoWriters, Reader.content]
    cases hr : r.err with
    | some e => simpa using h1
    | none => simp [ih, h1, List.append_assoc]

theorem readIntoWriters_err {σ : Type} (dst : List (Writer σ)) (src : Reader) (s : σ) :
    (readIntoWriters dst src s).1 = Reader.finalErr src := by
  induction src generalizing s with
  | nil => simp [readIntoWriters, Reader.finalErr]
  | cons r rest ih =>
    simp only [readIntoWriters, Reader.finalErr]
    cases hr : r.err with
    | some e => simp
    | none => simp [ih]

theorem writeAll_recorders (res : Nat → Bytes → WriteResult) (l : List Nat) (p : Bytes)
    (log : List (Nat × Bytes)) :
    writeAll (l.map (recorder res)) p log = log ++ l.map (fun i => (i, p)) := by
  induction l generalizing log with
  | nil => simp [writeAll]
  | cons i t ih => simp [writeAll, recorder, ih]

theorem received_append (i : Nat) (a b : List (Nat × Bytes)) :
    received i (a ++ b) = received i a ++ received i b := by
  simp [received]

theorem received_single (i j : Nat) (p : Bytes) :
    received i [(j, p)] = if j = i then p else [] := by
  by_cases h : j = i <;> simp [received, h]

theorem received_below (i n : Nat) (p : Bytes) (hi : n ≤ i) :
    received i ((List.range n).map (fun j => (j, p))) = [] := by
  induction n with
  | zero => simp [received]
  | succ m ih =>
    have hne : ¬ m = i := by omega
    rw [List.range_succ, List.map_append, received_append, ih (by omega)]
    simp [received_single, hne]

theorem received_round (i n : Nat) (p : Bytes) (hi : i < n) :
    received i ((List.range n).map (fun j => (j, p))) = p := by
  induction n with
  | zero => omega
  | succ m ih =>
    rw [List.range_succ, List.map_append, received_append]
    by_cases him : i < m
    · have hne : ¬ m = i := by omega
      rw [ih him]
      simp [received_single, hne]
    · have hmi : m = i := by omega
      rw [received_below i m p (by omega)]
      simp [received_single, hmi]

theorem Reader.content_clean (chunks : List Bytes) (last : Bytes) (rest : Reader) :
    Reader.content (chunks.map (fun c => (⟨c, none⟩ : ReadResult))
      ++ ⟨last, some IOErr.EOF⟩ :: rest) = (chunks ++ [last]).flatten := by
  induction chunks with
  | nil => simp [Reader.content]
  | cons c t ih => simp [Reader.content, ih]

/-! ## The streaming copier -/

/-- C7: for a source that yields finitely many chunks and then a clean end-of-stream, and
for any number `n` of destinations (whatever their writes answer), `readIntoWriters`
returns no error; the log of writes is, chunk by chunk in source order, one write of the
chunk to each destination in list order (an empty chunk is not written); and every
destination is handed exactly the concatenation of the source's bytes. -/
theorem readIntoWriters_clean_source (res : Nat → Bytes → WriteResult) (n : Nat)
    (chunks : List Bytes) (last : Bytes) (rest : Reader) (log0 : List (Nat × Bytes)) :
    readIntoWriters ((List.range n).map (recorder res))
        (chunks.map (fun c => (⟨c, none⟩ : ReadResult)) ++ ⟨last, some IOErr.EOF⟩ :: rest) log0
      = (none, log0 ++ ((chunks ++ [last]).filter (fun c => decide (c.length > 0))).flatMap
          (fun c => (List.range n).map (fun i => (i, c))))
    ∧ ∀ i, i < n →
        received i (readIntoWriters ((List.range n).map (recorder res))
          (chunks.map (fun c => (⟨c, none⟩ : ReadResult)) ++ ⟨last, some IOErr.EOF⟩ :: rest)
          log0).2 = received i log0 ++ (chunks ++ [last]).flatten := by
  constructor
  · induction chunks generalizing log0 with
    | nil =>
      by_cases hl : last.length > 0
      · simp [readIntoWriters, writeAll_recorders, hl]
      · simp [readIntoWriters, hl]
    | cons c t ih =>
      by_cases hc : c.length > 0
      · simp [readIntoWriters, writeAll_recorders, hc, ih, List.filter_cons]
      · simp [readIntoWriters, hc, ih, List.filter_cons]
  · intro i hi
    rw [readIntoWriters_appends (received i) ((List.range n).map (recorder res))
      (fun p s => by rw [writeAll_recorders, received_append, received_round i n p hi]),
      Reader.content_clean]

/-- C7, at two destinations and the chunks `[1, 2]`, `[3]`, then `io.EOF`: destination 1
is handed `[1, 2, 3]`. -/
theorem readIntoWriters_clean_source_witness :
    received 1 (readIntoWriters ((List.range 2).map (recorder firstFails))
      (([[1, 2], [3]] : List Bytes).map (fun c => (⟨c, none⟩ : ReadResult))
        ++ ⟨[], some IOErr.EOF⟩ :: [])
      []).2 = received 1 [] ++ (([[1, 2], [3]] : List Bytes) ++ [[]]).flatten :=
  (readIntoWriters_clean_source firstFails 2 [[1, 2], [3]] [] [] []).2 1 (by decide)

/-- C8: destination 0 fails on every chunk, yet `readIntoWriters` goes on: it hands both
chunks to both destinations and returns no error. -/
theorem readIntoWriters_ignores_write_failure :
    (firstFails 0 [1, 2]).err = some "no space left on device"
    ∧ readIntoWriters ((List.range 2).map (recorder firstFails))
        [⟨[1, 2], none⟩, ⟨[3], some IOErr.EOF⟩] []
      = (none, [(0, [1, 2]), (1, [1, 2]), (0, [3]), (1, [3])]) := by
  decide

/-! ## Lemmas on the response writer -/

theorem Marked_Add (registry : String) (h : Header) (key value : String)
    (hm : Marked registry h) : Marked registry (h.Add key value) :=
  ⟨Header.mem_lookup_Add h key value _ _ hm.1, Header.mem_lookup_Add h key value _ _ hm.2⟩

theorem Marked_copyHeaders (registry : String) (dst src : Header)
    (hm : Marked registry dst) : Marked registry (copyHeaders dst src) :=
  ⟨copyHeaders_keeps dst src _ _ hm.1, copyHeaders_keeps dst src _ _ hm.2⟩

theorem Marked_init (registry : String) (h : Header) :
    Marked registry ((h.Add "X-Proxied-By" "cacheyd").Add "X-Proxied-For" registry) :=
  ⟨Header.mem_lookup_Add _ _ _ _ _ (Header.mem_Values_Add h "X-Proxied-By" "cacheyd"),
   Header.mem_Values_Add _ "X-Proxied-For" registry⟩

theorem ResponseWriter.Marked_addHeader (registry : String) (s : World) (key value : String)
    (hm : s.w.Marked registry) : (s.addHeader key value).w.Marked registry :=
  ⟨Marked_Add registry _ key value hm.1, hm.2⟩

theorem ResponseWriter.Marked_writeStatus (registry : String) (s : World) (code : Nat)
    (hm : s.w.Marked registry) : (s.writeStatus code).w.Marked registry := by
  unfold World.writeStatus
  cases hs : s.w.sent with
  | some x => simpa using hm
  | none =>
    refine ⟨hm.1, ?_⟩
    intro x hx
    simp at hx
    subst hx
    exact hm.1

theorem ResponseWriter.Marked_WriteHeader (registry : String) (s : World) (code : Nat)
    (t : World) (hm : s.w.Marked registry) (ht : s.WriteHeader code = some t) :
    t.w.Marked registry := by
  unfold World.WriteHeader at ht
  cases hs : s.w.sent with
  | some x =>
    simp [hs] at ht
    subst ht
    exact hm
  | none =>
    simp only [hs] at ht
    split at ht
    · cases ht
    · split at ht
      · simp at ht
        subst ht
        exact ⟨hm.1, fun x hx => by simp [hs] at hx⟩
      · simp at ht
        subst ht
        exact ResponseWriter.Marked_writeStatus registry s code hm

theorem ResponseWriter.Marked_writers (registry : String) (v : Writer World)
    (hv : v ∈ [cacheWriterWriter, StdouteyBoi, clientWriter]) (p : Bytes) (s : World)
    (hm : s.w.Marked registry) : (v.Write p s).2.w.Marked registry := by
  simp only [List.mem_cons, List.mem_singleton, List.not_mem_nil, or_false] at hv
  rcases hv with rfl | rfl | rfl
  · exact hm
  · exact hm
  · have h := ResponseWriter.Marked_writeStatus registry s 200 hm
    exact ⟨h.1, h.2⟩

theorem successWriters_subset (object : ObjectIdentifier) (isHead : Bool) :
    ∀ v ∈ successWriters object isHead, v ∈ [cacheWriterWriter, StdouteyBoi, clientWriter] := by
  intro v hv
  unfold successWriters at hv
  cases isHead <;> cases hk : object.Kind <;> simp [hk] at hv <;> aesop

theorem proxySuccessOrError_frame (env : Env) (url method : String) (headers : Header)
    (s : World) :
    (proxySuccessOrError env url method headers s).2.w = s.w
    ∧ (proxySuccessOrError env url method headers s).2.cacheWriter = s.cacheWriter := by
  unfold proxySuccessOrError proxy
  cases hn : env.NewRequestWithContext method url with
  | some e => simp
  | none =>
    cases hd : env.Do { Method := method, URL := url, Header := copyHeaders [] headers } with
    | error e => simp [hd]
    | ok resp => by_cases h2 : resp.StatusCode = 200 <;> simp [hd, h2]

theorem World.WriteHeader_final (code : Nat) (hlow : 100 ≤ code) (hhigh : code ≤ 999)
    (hfinal : code ≤ 199 → code = 101) (t : World) (ht : t.w.sent = none) :
    t.WriteHeader code
      = some { t with w := { t.w with sent := some (code, t.w.header) } } := by
  have h1 : ¬ (code < 100 ∨ code > 999) := by omega
  have h2 : ¬ (code ≤ 199 ∧ code ≠ 101) := fun h => h.2 (hfinal h.1)
  simp [World.WriteHeader, World.writeStatus, ht, h1, h2]

theorem clientWriter_frame (p : Bytes) (s : World) :
    (clientWriter.Write p s).2.w.header = s.w.header
    ∧ (clientWriter.Write p s).2.w.body = s.w.body ++ p
    ∧ (clientWriter.Write p s).2.cacheWriter = s.cacheWriter
    ∧ (clientWriter.Write p s).2.requests = s.requests
    ∧ (clientWriter.Write p s).2.w.interim = s.w.interim := by
  unfold clientWriter World.writeStatus
  cases hs : s.w.sent <;> simp [hs]

theorem clientWriter_sent (p : Bytes) (s : World) :
    (clientWriter.Write p s).2.w.sent
      = some (match s.w.sent with
              | some x => x
              | none => (200, s.w.header)) := by
  unfold clientWriter World.writeStatus
  cases hs : s.w.sent <;> simp [hs]

/-- A copy whose only destination is the client appends the reader's content to the
body and leaves the header map, the write-sink and the request log alone. -/
theorem readIntoWriters_client (src : Reader) (s : World) :
    (readIntoWriters [clientWriter] src s).2.w.header = s.w.header
    ∧ (readIntoWriters [clientWriter] src s).2.w.body = s.w.body ++ Reader.content src
    ∧ (readIntoWriters [clientWriter] src s).2.cacheWriter = s.cacheWriter
    ∧ (readIntoWriters [clientWriter] src s).2.requests = s.requests
    ∧ (readIntoWriters [clientWriter] src s).2.w.interim = s.w.interim := by
  refine ⟨?_, ?_, ?_, ?_, ?_⟩
  · exact readIntoWriters_preserves (fun t => t.w.header = s.w.header) [clientWriter]
      (fun v hv p t ht => by
        simp at hv; subst hv; exact (clientWriter_frame p t).1.trans ht) src s rfl
  · exact readIntoWriters_appends (fun t => t.w.body) [clientWriter]
      (fun p t => by simpa [writeAll] using (clientWriter_frame p t).2.1) src s
  · exact readIntoWriters_preserves (fun t => t.cacheWriter = s.cacheWriter) [clientWriter]
      (fun v hv p t ht => by
        simp at hv; subst hv; exact (clientWriter_frame p t).2.2.1.trans ht) src s rfl
  · exact readIntoWriters_preserves (fun t => t.requests = s.requests) [clientWriter]
      (fun v hv p t ht => by
        simp at hv; subst hv; exact (clientWriter_frame p t).2.2.2.1.trans ht) src s rfl
  · exact readIntoWriters_preserves (fun t => t.w.interim = s.w.interim) [clientWriter]
      (fun v hv p t ht => by
        simp at hv; subst hv; exact (clientWriter_frame p t).2.2.2.2.trans ht) src s rfl

/-- A copy whose only destination is the client keeps a status that was already sent,
and otherwise can only send 200 with the header map as it stands. -/
theorem readIntoWriters_client_sent (src : Reader) (s : World) (x : Nat × Header) :
    (s.w.sent = some x → (readIntoWriters [clientWriter] src s).2.w.sent = some x)
    ∧ (s.w.sent = none → (readIntoWriters [clientWriter] src s).2.w.sent = some x →
        x = (200, s.w.header)) := by
  constructor
  · intro hs
    exact readIntoWriters_preserves (fun t => t.w.sent = some x) [clientWriter]
      (fun v hv p t ht => by
        simp at hv; subst hv
        rw [clientWriter_sent, ht]) src s hs
  · intro hs hx
    have h := readIntoWriters_preserves
      (fun t => t.w.header = s.w.header ∧ ∀ y, t.w.sent = some y → y = (200, s.w.header))
      [clientWriter]
      (fun v hv p t ht => by
        simp at hv; subst hv
        refine ⟨(clientWriter_frame p t).1.trans ht.1, ?_⟩
        intro y hy
        rw [clientWriter_sent] at hy
        cases hts : t.w.sent with
        | some z =>
          rw [hts] at hy
          simp at hy
          subst hy
          exact ht.2 z hts
        | none =>
          rw [hts] at hy
          simp at hy
          rw [← hy, ht.1]) src s ⟨rfl, fun y hy => by rw [hs] at hy; cases hy⟩
    exact h.2 x hx

/-! ## The orchestrator -/

/-- C9: starting from a response that has not been sent yet, whichever branch
`cacheOrProxy` takes, the header map of the response writer at the end, and the headers
sent with the status whenever a status or body was written, hold `cacheyd` under
`X-Proxied-By` and `object.Registry` under `X-Proxied-For`; and `copyHeaders` keeps both
markers of any destination map. -/
theorem cacheOrProxy_markers (env : Env) (object : ObjectIdentifier) (isHead : Bool)
    (headers : Header) (s : World) (hfresh : s.w.sent = none) :
    (cacheOrProxy env object isHead headers s).2.w.Marked object.Registry
    ∧ ∀ dst src : Header, Marked object.Registry dst →
        Marked object.Registry (copyHeaders dst src) := by
  refine ⟨?_, fun dst src h => Marked_copyHeaders _ dst src h⟩
  have h0 : ((s.addHeader "X-Proxied-By" "cacheyd").addHeader "X-Proxied-For"
      object.Registry).w.Marked object.Registry := by
    refine ⟨Marked_init _ _, ?_⟩
    intro x hx
    simp [World.addHeader, hfresh] at hx
  unfold cacheOrProxy
  simp only []
  generalize (s.addHeader "X-Proxied-By" "cacheyd").addHeader "X-Proxied-For"
      object.Registry = s1 at h0 ⊢
  cases herr : (env.GetCache object).err with
  | some e =>
    simp only []
    split
    · exact h0
    · next t hw => exact ResponseWriter.Marked_WriteHeader _ _ _ t h0 hw
  | none =>
    cases hc : (env.GetCache object).cached with
    | some cached =>
      have h4 := ResponseWriter.Marked_addHeader object.Registry _ HeaderDockerContentDigest
        cached.DockerContentDigest
        (ResponseWriter.Marked_addHeader object.Registry _ HeaderContentType cached.ContentType
          (ResponseWriter.Marked_addHeader object.Registry _ HeaderContentLength
            (toString cached.SizeBytes)
            (ResponseWriter.Marked_addHeader object.Registry
              { s1 with cacheHits := s1.cacheHits + 1 } "X-Proxy-Date" cached.CacheDate.String h0)))
      exact readIntoWriters_preserves (fun t => t.w.Marked object.Registry) [clientWriter]
        (fun v hv p t ht => ResponseWriter.Marked_writers object.Registry v
          (by simp at hv; simp [hv]) p t ht) _ _ h4
    | none =>
      have hf := (proxySuccessOrError_frame env (upstreamURL object) "GET" headers
        { s1 with cacheMisses := s1.cacheMisses + 1 }).1
      rcases hp : proxySuccessOrError env (upstreamURL object) "GET" headers
        { s1 with cacheMisses := s1.cacheMisses + 1 } with ⟨⟨oresp, oerr⟩, s2⟩
      rw [hp] at hf
      have h2 : s2.w.Marked object.Registry := by
        simp only at hf
        rw [hf]
        exact h0
      have hcopy : ∀ src : Header,
          ({ s2 with w := { s2.w with header := copyHeaders s2.w.header src } } :
            World).w.Marked object.Registry :=
        fun src => ⟨Marked_copyHeaders _ _ src h2.1, h2.2⟩
      cases oresp with
      | none => exact h2
      | some upstreamResp =>
        cases oerr with
        | some err =>
          simp only [World.closeReader]
          split
          · split
            · exact hcopy upstreamResp.Header
            · next t hw =>
              have h3 := ResponseWriter.Marked_WriteHeader object.Registry _
                upstreamResp.StatusCode t (hcopy upstreamResp.Header) hw
              simp only []
              split
              · exact readIntoWriters_preserves (fun t => t.w.Marked object.Registry)
                  [clientWriter]
                  (fun v hv p t ht => ResponseWriter.Marked_writers object.Registry v
                    (by simp at hv; simp [hv]) p t ht) _ _ h3
              · exact h3
          · exact h2
        | none =>
          simp only [World.closeReader]
          split
          · exact hcopy upstreamResp.Header
          · next t hw =>
            have h3 := ResponseWriter.Marked_WriteHeader object.Registry _
              upstreamResp.StatusCode t (hcopy upstreamResp.Header) hw
            exact readIntoWriters_preserves (fun t => t.w.Marked object.Registry)
              (successWriters object isHead)
              (fun v hv p t ht => ResponseWriter.Marked_writers object.Registry v
                (successWriters_subset object isHead v hv) p t ht) _ _ h3

/-- C9, on a miss answered by a 200: the markers are in the final header map. -/
theorem cacheOrProxy_markers_witness :
    World.fresh.w.sent = none
    ∧ (cacheOrProxy (missEnv (Except.ok okResponse)) testManifest false []
        World.fresh).2.w.Marked "docker.io" :=
  ⟨rfl, (cacheOrProxy_markers (missEnv (Except.ok okResponse)) testManifest false []
    World.fresh rfl).1⟩

/-- C5: when `GetCache` returns an artifact and no error, whatever `isHead` and the
request headers are, `cacheOrProxy` returns after adding to the response headers the two
markers, `X-Proxy-Date` (the cache date), `Content-Length` (the decimal text of
`SizeBytes`), `Content-Type` and `Docker-Content-Digest` from the artifact; it appends to
the client body exactly the content of the artifact's reader; a status sent on the way
is 200 with those headers; no upstream request is made and the write-sink is neither
written nor closed. -/
theorem cacheOrProxy_hit (env : Env) (object : ObjectIdentifier) (isHead : Bool)
    (headers : Header) (s : World) (cached : CachedObject)
    (hhit : env.GetCache object = { cached := some cached, err := none })
    (hfresh : s.w.sent = none) :
    ∃ out : World, cacheOrProxy env object isHead headers s = (Exit.returned, out)
      ∧ out.w.header = (((((s.w.header.Add "X-Proxied-By" "cacheyd").Add "X-Proxied-For"
          object.Registry).Add "X-Proxy-Date" cached.CacheDate.String).Add "Content-Length"
          (toString cached.SizeBytes)).Add "Content-Type" cached.ContentType).Add
          "Docker-Content-Digest" cached.DockerContentDigest
      ∧ (∀ x, out.w.sent = some x → x = (200, out.w.header))
      ∧ out.w.body = s.w.body ++ Reader.content cached.GetReader
      ∧ out.requests = s.requests
      ∧ out.cacheWriter = s.cacheWriter := by
  unfold cacheOrProxy
  simp only [hhit]
  refine ⟨_, rfl, ?_, ?_, ?_, ?_, ?_⟩
  · simp only [World.closeReader]
    rw [(readIntoWriters_client _ _).1]
    rfl
  · intro x hx
    simp only [World.closeReader] at hx ⊢
    rw [(readIntoWriters_client _ _).1]
    exact (readIntoWriters_client_sent _ _ x).2 (by simp [World.addHeader, hfresh]) hx
  · simp only [World.closeReader]
    rw [(readIntoWriters_client _ _).2.1]
    rfl
  · simp only [World.closeReader]
    rw [(readIntoWriters_client _ _).2.2.2.1]
    rfl
  · simp only [World.closeReader]
    rw [(readIntoWriters_client _ _).2.2.1]
    rfl

/-- C5, on the six-byte artifact and a HEAD request: the client body is the artifact. -/
theorem cacheOrProxy_hit_witness :
    (hitEnv testCached).GetCache testManifest = { cached := some testCached, err := none }
    ∧ World.fresh.w.sent = none
    ∧ ∃ out : World, cacheOrProxy (hitEnv testCached) testManifest true [] World.fresh
          = (Exit.returned, out)
        ∧ out.w.body = World.fresh.w.body ++ Reader.content testCached.GetReader
        ∧ out.requests = World.fresh.requests
        ∧ out.cacheWriter = World.fresh.cacheWriter :=
  ⟨rfl, rfl,
    (cacheOrProxy_hit (hitEnv testCached) testManifest true [] World.fresh testCached rfl
      rfl).imp (fun _ h => ⟨h.1, h.2.2.2.1, h.2.2.2.2.1, h.2.2.2.2.2⟩)⟩

/-- C1, as stated, fails at the upstream status 99: `WriteHeader(99)` panics, so the
handler does not return, no status is sent and no body byte is handed to the client,
although `isHead` is false and the upstream body is `gone`. -/
theorem cacheOrProxy_passthrough_status_99 :
    status99Response.StatusCode ≠ 200
    ∧ (cacheOrProxy (missEnv (Except.ok status99Response)) testManifest false []
        World.fresh).1 = Exit.panicked
    ∧ (cacheOrProxy (missEnv (Except.ok status99Response)) testManifest false []
        World.fresh).2.w.sent = none
    ∧ (cacheOrProxy (missEnv (Except.ok status99Response)) testManifest false []
        World.fresh).2.w.body = []
    ∧ Reader.content status99Response.Body ≠ [] := by
  decide

/-- C1, amended: on a cache miss where the upstream answers with a status other than 200
that `WriteHeader` accepts as a final status (from 100 to 999, and not an informational
1xx other than 101), and the response has not been sent yet, `cacheOrProxy` returns after
sending exactly that status, with no interim response, and with headers holding every
value of every upstream header; the client body grows by the upstream body when `isHead`
is false and by nothing when it is true; the write-sink is neither written nor closed. -/
theorem cacheOrProxy_passthrough (env : Env) (object : ObjectIdentifier) (isHead : Bool)
    (headers : Header) (s : World) (resp : Response)
    (hmiss : env.GetCache object = { cached := none, err := none })
    (hnew : env.NewRequestWithContext "GET" (upstreamURL object) = none)
    (hdo : env.Do { Method := "GET", URL := upstreamURL object,
                    Header := copyHeaders [] headers } = Except.ok resp)
    (hstatus : resp.StatusCode ≠ 200)
    (hlow : 100 ≤ resp.StatusCode) (hhigh : resp.StatusCode ≤ 999)
    (hfinal : resp.StatusCode ≤ 199 → resp.StatusCode = 101)
    (hfresh : s.w.sent = none) :
    ∃ out : World, cacheOrProxy env object isHead headers s = (Exit.returned, out)
      ∧ out.w.sent = some (resp.StatusCode, out.w.header)
      ∧ out.w.interim = s.w.interim
      ∧ (∀ k vv v, (k, vv) ∈ resp.Header → v ∈ vv → v ∈ out.w.header.Values k)
      ∧ out.w.body = s.w.body ++ (if isHead then [] else Reader.content resp.Body)
      ∧ out.cacheWriter = s.cacheWriter := by
  have hp : ∀ t : World, proxySuccessOrError env (upstreamURL object) "GET" headers t
      = ((some resp, some (Error.Non200Error resp.StatusCode)),
         { t with requests := t.requests ++ [(⟨"GET", upstreamURL object,
                    copyHeaders [] headers⟩ : Request)] }) := by
    intro t
    unfold proxySuccessOrError proxy
    simp [hnew, hdo, hstatus]
  have hw : ∀ t : World, t.w.sent = none →
      t.WriteHeader resp.StatusCode
        = some { t with w := { t.w with sent := some (resp.StatusCode, t.w.header) } } :=
    World.WriteHeader_final resp.StatusCode hlow hhigh hfinal
  unfold cacheOrProxy
  simp only [hmiss, hp, Error.isNon200, if_true]
  rw [hw _ (by simp [World.addHeader, hfresh])]
  simp only []
  cases isHead with
  | true =>
    refine ⟨_, rfl, ?_, ?_, ?_, ?_, ?_⟩
    · simp [World.closeReader, World.addHeader]
    · simp [World.closeReader, World.addHeader]
    · intro k vv v hk hv
      simpa [World.closeReader, World.addHeader]
        using copyHeaders_adds _ resp.Header k vv v hk hv
    · simp [World.closeReader, World.addHeader]
    · simp [World.closeReader, World.addHeader]
  | false =>
    refine ⟨_, rfl, ?_, ?_, ?_, ?_, ?_⟩
    · simp only [World.closeReader, Bool.not_false, if_true]
      rw [(readIntoWriters_client _ _).1]
      exact (readIntoWriters_client_sent _ _ _).1 rfl
    · simp only [World.closeReader, Bool.not_false, if_true]
      rw [(readIntoWriters_client _ _).2.2.2.2]
      simp [World.addHeader]
    · intro k vv v hk hv
      simp only [World.closeReader, Bool.not_false, if_true]
      rw [(readIntoWriters_client _ _).1]
      simpa [World.addHeader]
        using copyHeaders_adds _ resp.Header k vv v hk hv
    · simp only [World.closeReader, Bool.not_false, if_true]
      rw [(readIntoWriters_client _ _).2.1]
      simp [World.addHeader]
    · simp only [World.closeReader, Bool.not_false, if_true]
      rw [(readIntoWriters_client _ _).2.2.1]
      simp [World.addHeader]

/-- C1, amended, on a 404 with a challenge header and the body `gone`, for a GET. -/
theorem cacheOrProxy_passthrough_witness :
    (missEnv (Except.ok notFoundResponse)).GetCache testManifest
        = { cached := none, err := none }
    ∧ notFoundResponse.StatusCode ≠ 200
    ∧ 100 ≤ notFoundResponse.StatusCode ∧ notFoundResponse.StatusCode ≤ 999
    ∧ World.fresh.w.sent = none
    ∧ ∃ out : World, cacheOrProxy (missEnv (Except.ok notFoundResponse)) testManifest false []
          World.fresh = (Exit.returned, out)
        ∧ out.w.sent = some (notFoundResponse.StatusCode, out.w.header)
        ∧ out.w.interim = World.fresh.w.interim
        ∧ (∀ k vv v, (k, vv) ∈ notFoundResponse.Header → v ∈ vv → v ∈ out.w.header.Values k)
        ∧ out.w.body = World.fresh.w.body
            ++ (if false then [] else Reader.content notFoundResponse.Body)
        ∧ out.cacheWriter = World.fresh.cacheWriter :=
  ⟨rfl, by decide, by decide, by decide, rfl,
    cacheOrProxy_passthrough (missEnv (Except.ok notFoundResponse)) testManifest false []
      World.fresh notFoundResponse rfl rfl rfl (by decide) (by decide) (by decide)
      (by decide) rfl⟩

/-- C3: on a miss whose upstream fetch fails at the transport level, `cacheOrProxy`
panics on the nil response (service.go:87); no status is sent, and the write-sink is not
closed. -/
theorem cacheOrProxy_transport_failure_panics :
    (cacheOrProxy (missEnv (Except.error "dial tcp: connection refused")) testManifest false
        [] World.fresh).1 = Exit.panicked
    ∧ (cacheOrProxy (missEnv (Except.error "dial tcp: connection refused")) testManifest false
        [] World.fresh).2.w.sent = none
    ∧ (cacheOrProxy (missEnv (Except.error "dial tcp: connection refused")) testManifest false
        [] World.fresh).2.cacheWriter.closes = [] := by
  decide

/-- C4: on a miss answered by a 200 whose body breaks after three bytes,
`readIntoWriters` returns the read error, and `cacheOrProxy` still closes the write-sink,
over the three bytes received. -/
theorem cacheOrProxy_commits_after_read_error :
    (readIntoWriters (successWriters testManifest false) brokenResponse.Body World.fresh).1
        = some (IOErr.other "unexpected EOF")
    ∧ (cacheOrProxy (missEnv (Except.ok brokenResponse)) testManifest false []
        World.fresh).2.cacheWriter
        = { written := [1, 2, 3], closes := [("text/plain", "sha256:abc")] } := by
  decide

/-- C2: a HEAD request on the manifest route, with `ns`, that misses the cache and gets
a 200 with the body `6bytes`: the write-sink receives the body and is closed with the
upstream content type and digest, but the six bytes are written to the client too; the
same request on the blob route writes nothing to the client. -/
theorem manifest_head_writes_body_to_client :
    (NewRouter (cacheydServices (missEnv (Except.ok okResponse))) Route.manifests testVars
        headRequest World.fresh).2.cacheWriter
        = { written := bytesOf "6bytes",
            closes := [("application/vnd.docker.distribution.manifest.v2+json", "sha256:abc")] }
    ∧ (NewRouter (cacheydServices (missEnv (Except.ok okResponse))) Route.manifests testVars
        headRequest World.fresh).2.w.body = bytesOf "6bytes"
    ∧ (NewRouter (cacheydServices (missEnv (Except.ok okResponse))) Route.blobs testVars
        headRequest World.fresh).2.w.body = [] := by
  decide

/-! ## The router -/

theorem bytesOf_append (a b : String) : bytesOf (a ++ b) = bytesOf a ++ bytesOf b := by
  simp [bytesOf, String.data_append]

/-- C10: on the manifest route and on the blob route, when `ns` is absent or empty and
the response has not been sent yet, the router returns after sending status 400 and the
body `No ns query string given ...` followed by the repository name, and the outcome is
the same whatever the service is, which is therefore not invoked; when `ns` is not
empty, the manifest route hands repository, `ref` and registry to `GetManifest` and the
blob route hands repository, `digest` and registry to `GetBlob`. -/
theorem router_ns_parameter (services : Service) (vars : String → String) (r : HttpRequest)
    (s : World) (hfresh : s.w.sent = none) :
    (queryGet r.Query "ns" = "" →
      ∀ route, route = Route.manifests ∨ route = Route.blobs →
        NewRouter services route vars r s
          = (Exit.returned,
             { s with w := { s.w with
                 sent := some (400, s.w.header)
                 body := s.w.body
                   ++ bytesOf "No ns query string given (are you using containerd?): I don't know what registry to ask for "
                   ++ bytesOf (vars "repo") } }))
    ∧ (queryGet r.Query "ns" ≠ "" →
        (∃ isHead, NewRouter services Route.manifests vars r s
          = services.GetManifest (vars "repo") (vars "ref") (queryGet r.Query "ns") isHead
              r.Header s)
        ∧ (∃ isHead, NewRouter services Route.blobs vars r s
          = services.GetBlob (vars "repo") (vars "digest") (queryGet r.Query "ns") isHead
              r.Header s)) := by
  constructor
  · intro hns route hroute
    rcases hroute with rfl | rfl
    · simp [NewRouter, manifestHandler, hns, clientWriter, World.WriteHeader, World.writeStatus, hfresh,
        noNsMessage, bytesOf_append]
    · simp [NewRouter, blobHandler, hns, clientWriter, World.WriteHeader, World.writeStatus, hfresh,
        noNsMessage, bytesOf_append]
  · intro hns
    exact ⟨⟨false, by simp [NewRouter, manifestHandler, hns]⟩,
      ⟨if r.Method = "HEAD" then true else false, by simp [NewRouter, blobHandler, hns]⟩⟩

/-- C10, on a manifest request without a query string, and on the blob route of a
request with `ns=docker.io`. -/
theorem router_ns_parameter_witness :
    World.fresh.w.sent = none
    ∧ queryGet noNsRequest.Query "ns" = ""
    ∧ (NewRouter (cacheydServices (hitEnv testCached)) Route.manifests testVars noNsRequest
        World.fresh).2.w.sent = some (400, [])
    ∧ queryGet headRequest.Query "ns" ≠ ""
    ∧ (∃ isHead, NewRouter (cacheydServices (hitEnv testCached)) Route.blobs testVars
        headRequest World.fresh
          = (cacheydServices (hitEnv testCached)).GetBlob "user/repository" "v1.2.3"
              "docker.io" isHead headRequest.Header World.fresh) :=
  ⟨rfl, rfl,
    by rw [(router_ns_parameter (cacheydServices (hitEnv testCached)) testVars noNsRequest
      World.fresh rfl).1 rfl Route.manifests (Or.inl rfl)]; rfl,
    by decide,
    ((router_ns_parameter (cacheydServices (hitEnv testCached)) testVars headRequest
      World.fresh rfl).2 (by decide)).2⟩

/-! ## The cache store -/

theorem fileReads_content (size : Nat) (hsize : 0 < size) (fuel : Nat) (b : Bytes)
    (hfuel : b.length ≤ fuel) : Reader.content (fileReads size fuel b) = b := by
  induction fuel generalizing b with
  | zero =>
    have : b = [] := List.length_eq_zero.mp (by omega)
    simp [fileReads, Reader.content, this]
  | succ n ih =>
    by_cases hb : b = []
    · simp [fileReads, Reader.content, hb]
    · have hlen : 0 < b.length := List.length_pos.mpr hb
      have hdrop : (b.drop size).length ≤ n := by
        rw [List.length_drop]
        omega
      simp [fileReads, Reader.content, hb, ih _ hdrop]

theorem fileReads_finalErr (size fuel : Nat) (b : Bytes) :
    Reader.finalErr (fileReads size fuel b) = none := by
  induction fuel generalizing b with
  | zero => simp [fileReads, Reader.finalErr]
  | succ n ih =>
    by_cases hb : b = []
    · simp [fileReads, Reader.finalErr, hb]
    · simp [fileReads, Reader.finalErr, hb, ih]

/-- C6: when the content bytes `b` and a sidecar record are stored in the cache
directory under the identifier's key, `GetCache` returns no error and an artifact whose
`SizeBytes` is the length of `b` and whose reader, read from its start, delivers exactly
`b` and ends without error. -/
theorem FileCache.GetCache_present (key : ObjectIdentifier → String)
    (stored : String → String × String) (dir : CacheDirectory) (object : ObjectIdentifier)
    (b : Bytes) (record : SidecarRecord)
    (hcontent : dir.content (key object) = some b)
    (hsidecar : dir.sidecar (key object ++ ".json") = some record) :
    ∃ cached : CachedObject,
      FileCache.GetCache key stored dir object = { cached := some cached, err := none }
      ∧ cached.SizeBytes = b.length
      ∧ Reader.content cached.GetReader = b
      ∧ Reader.finalErr cached.GetReader = none := by
  refine ⟨_, by simp [FileCache.GetCache, hcontent, hsidecar]; rfl, rfl, ?_, ?_⟩
  · exact fileReads_content bufSize (by decide) b.length b (Nat.le_refl _)
  · exact fileReads_finalErr bufSize b.length b

/-- C6, on the first test case of `TestReadFromCache`. -/
theorem FileCache.GetCache_present_witness :
    testDirectory.content (testCacheName testManifest) = some (bytesOf "6bytes")
    ∧ ∃ cached : CachedObject,
      FileCache.GetCache testCacheName (fun _ => ("", "")) testDirectory testManifest
        = { cached := some cached, err := none }
      ∧ cached.SizeBytes = (bytesOf "6bytes").length
      ∧ Reader.content cached.GetReader = bytesOf "6bytes"
      ∧ Reader.finalErr cached.GetReader = none :=
  ⟨by decide,
    FileCache.GetCache_present testCacheName (fun _ => ("", "")) testDirectory testManifest
      (bytesOf "6bytes")
      { Registry := "docker.io", Repository := "user/repository", Ref := "v1.2.3",
        Kind := ObjectType.manifest }
      (by decide) (by decide)⟩

end Cacheyd
